import Mathlib

/-!
# Verification of the echohook event-stream core

Shallow embedding of the echohook repository's event-stream consumer,
request store merge logic, streaming relay, and curl-command builder,
together with theorems settling the frozen claims about them.

Source files embedded:
* `SessionPage` (session page component): request store state updates,
  SSE reconnection logic, effect setup/cleanup.
* `app/api/proxy/stream/[sessionId]/route.ts`: the streaming relay `GET`.
* `libs/curl.ts`: `constructCURL`.
* `libs/apiUrl.ts`: `getApiUrlSync`.
-/

namespace EchoHook

/-- One captured webhook request, mirroring the `WebhookRequest` interface of
the session page component field for field (`Record<string, string>` maps are
embedded as association lists). -/
structure WebhookRequest where
  request_id : String
  method : String
  path : String
  query_params : List (String × String)
  headers : List (String × String)
  body : String
  ip_address : String
  user_agent : String
  timestamp : String
  content_length : Nat
deriving Repr, DecidableEq

/-- The `request` SSE listener's state update on a successfully parsed event:
`setRequests((prev) => ...)` checks `prev.some((r) => r.request_id ===
newRequest.request_id)` and returns `prev` unchanged on a duplicate, else
`[newRequest, ...prev]`. -/
def appendLive (prev : List WebhookRequest) (newRequest : WebhookRequest) :
    List WebhookRequest :=
  if prev.any (fun r => r.request_id == newRequest.request_id) then prev
  else newRequest :: prev

/-- The historical fetch's state update: `setRequests(data.requests || [])`
replaces the current store with the fetched batch (`none` embeds an absent
`data.requests` field, which JavaScript's `||` turns into `[]`). The previous
store contents are not consulted. -/
def loadHistorical (dataRequests : Option (List WebhookRequest)) :
    List WebhookRequest :=
  dataRequests.getD []

/-- One write into the request store: either the one-shot historical batch
load or a live SSE insertion. -/
inductive MergeOp where
  | historical (dataRequests : Option (List WebhookRequest))
  | live (event : WebhookRequest)
deriving Repr

/-- Apply one store write as the session page performs it. -/
def applyMergeOp (store : List WebhookRequest) : MergeOp → List WebhookRequest
  | .historical dataRequests => loadHistorical dataRequests
  | .live e => appendLive store e

/-- Run a sequence of store writes (one interleaving of the two entry
points) left to right. -/
def runMergeOps (store : List WebhookRequest) (ops : List MergeOp) :
    List WebhookRequest :=
  ops.foldl applyMergeOp store

/-- The stored `request_id`s, in store order. -/
def storeIds (s : List WebhookRequest) : List String :=
  s.map WebhookRequest.request_id

theorem appendLive_of_mem (s : List WebhookRequest) (e : WebhookRequest)
    (h : e.request_id ∈ storeIds s) : appendLive s e = s := by
  unfold appendLive
  rw [if_pos]
  simp only [storeIds, List.mem_map] at h
  obtain ⟨r, hr, hid⟩ := h
  simp only [List.any_eq_true]
  exact ⟨r, hr, by simp [hid]⟩

theorem appendLive_of_not_mem (s : List WebhookRequest) (e : WebhookRequest)
    (h : e.request_id ∉ storeIds s) : appendLive s e = e :: s := by
  unfold appendLive
  rw [if_neg]
  simp only [List.any_eq_true, beq_iff_eq, not_exists, not_and]
  intro r hr hid
  exact absurd (by exact List.mem_map.mpr ⟨r, hr, hid⟩) h

theorem mem_storeIds_appendLive (s : List WebhookRequest) (e : WebhookRequest)
    (i : String) :
    i ∈ storeIds (appendLive s e) ↔ i = e.request_id ∨ i ∈ storeIds s := by
  by_cases h : e.request_id ∈ storeIds s
  · rw [appendLive_of_mem s e h]
    constructor
    · exact Or.inr
    · rintro (rfl | hi)
      · exact h
      · exact hi
  · rw [appendLive_of_not_mem s e h]
    simp [storeIds]

theorem nodup_storeIds_appendLive (s : List WebhookRequest)
    (e : WebhookRequest) (h : (storeIds s).Nodup) :
    (storeIds (appendLive s e)).Nodup := by
  by_cases hm : e.request_id ∈ storeIds s
  · rw [appendLive_of_mem s e hm]; exact h
  · rw [appendLive_of_not_mem s e hm]
    have hcons : storeIds (e :: s) = e.request_id :: storeIds s := rfl
    rw [hcons, List.nodup_cons]
    exact ⟨hm, h⟩

theorem nodup_storeIds_foldl_appendLive (l : List WebhookRequest) :
    ∀ s : List WebhookRequest, (storeIds s).Nodup →
      (storeIds (l.foldl appendLive s)).Nodup := by
  induction l with
  | nil => intro s h; exact h
  | cons e l ih =>
    intro s h
    exact ih (appendLive s e) (nodup_storeIds_appendLive s e h)

theorem mem_storeIds_foldl_appendLive (l : List WebhookRequest) :
    ∀ (s : List WebhookRequest) (i : String),
      i ∈ storeIds (l.foldl appendLive s) ↔
        i ∈ storeIds s ∨ i ∈ l.map WebhookRequest.request_id := by
  induction l with
  | nil => intro s i; simp
  | cons e l ih =>
    intro s i
    simp only [List.foldl_cons, ih (appendLive s e) i,
      mem_storeIds_appendLive, List.map_cons, List.mem_cons]
    tauto

theorem foldl_applyMergeOp_live (l : List WebhookRequest) :
    ∀ s : List WebhookRequest,
      (l.map MergeOp.live).foldl applyMergeOp s = l.foldl appendLive s := by
  induction l with
  | nil => intro s; rfl
  | cons e l ih => intro s; simp only [List.map_cons, List.foldl_cons]; exact ih _

/-- Reconnection constant `maxReconnectAttempts = 10` from the session page's
SSE effect. -/
def maxReconnectAttempts : Nat := 10

/-- Reconnection constant `baseReconnectDelay = 1000` (milliseconds) from the
session page's SSE effect. -/
def baseReconnectDelay : Nat := 1000

/-- The delay computed in `eventSource.onerror`:
`Math.min(baseReconnectDelay * Math.pow(2, reconnectAttempts), 30000)`
(milliseconds; exact in `Nat` since the exponent stays small). -/
def reconnectDelay (attempt : Nat) : Nat :=
  min (baseReconnectDelay * 2 ^ attempt) 30000

/-- The message passed to `setError` when the attempt budget is exhausted. -/
def sseFailureMessage : String :=
  "Failed to maintain SSE connection. Please refresh the page."

/-- The mutable pieces the SSE effect of the session page owns: the React
state setters it calls (`requests`, `isConnected`, `error`) and the effect's
local variables (`reconnectAttempts`, `reconnectTimeout`, `eventSource`).
`pendingTimer` records the delay of a scheduled reconnect timer (if any) and
`transportOpen` whether an `EventSource` is currently held open. -/
structure ConsumerState where
  requests : List WebhookRequest
  isConnected : Bool
  error : Option String
  reconnectAttempts : Nat
  pendingTimer : Option Nat
  transportOpen : Bool
deriving Repr, DecidableEq

/-- `eventSource.onopen`: connected, clear the error, reset the attempt
counter. -/
def onOpen (s : ConsumerState) : ConsumerState :=
  { s with isConnected := true, error := none, reconnectAttempts := 0 }

/-- `eventSource.addEventListener('ping', ...)`: mark the connection alive;
nothing else changes. -/
def onPing (s : ConsumerState) : ConsumerState :=
  { s with isConnected := true }

/-- The `request` listener: `JSON.parse(event.data)` inside `try`, embedded
as an explicit `parse` function returning `none` where `JSON.parse` throws.
On success the store update `appendLive` runs; on failure the `catch` block
only logs (`console.error`), leaving every piece of state untouched. -/
def onRequestEvent (parse : String → Option WebhookRequest) (data : String)
    (s : ConsumerState) : ConsumerState :=
  match parse data with
  | some newRequest => { s with requests := appendLive s.requests newRequest }
  | none => s

/-- `eventSource.onerror`: drop the connected flag; if the attempt budget is
not exhausted and the transport reports `readyState === EventSource.CLOSED`,
compute the backoff delay from the current counter, increment the counter and
schedule the reconnect timer; otherwise, if the budget is exhausted, set the
terminal failure message (and schedule nothing). -/
def onError (readyStateClosed : Bool) (s : ConsumerState) : ConsumerState :=
  let s1 := { s with isConnected := false }
  if s1.reconnectAttempts < maxReconnectAttempts ∧ readyStateClosed = true then
    { s1 with
      reconnectAttempts := s1.reconnectAttempts + 1,
      pendingTimer := some (reconnectDelay s1.reconnectAttempts) }
  else if maxReconnectAttempts ≤ s1.reconnectAttempts then
    { s1 with error := some sseFailureMessage }
  else s1

/-- The effect cleanup returned by the SSE `useEffect`:
`clearTimeout(reconnectTimeout)` and `eventSource.close()`. -/
def cleanup (s : ConsumerState) : ConsumerState :=
  { s with pendingTimer := none, transportOpen := false }

/-- A reconnect timer can only fire while one is scheduled. -/
def timerCanFire (s : ConsumerState) : Bool :=
  s.pendingTimer.isSome

/-- Transport callbacks (`request`/`ping`/`onerror`) can only be delivered
while an `EventSource` is held open. -/
def transportCanDeliver (s : ConsumerState) : Bool :=
  s.transportOpen

/-- What the SSE `useEffect` body does synchronously when it runs: the guard
`if (!sessionId || !apiUrl) return;` (a JavaScript falsiness test, i.e. an
empty-string test here) aborts before anything is created; otherwise
`connect()` runs, which opens an `EventSource`. No timer is scheduled and
`setError` is not called synchronously on either path. -/
structure SseEffectResult where
  transportOpened : Bool
  timerScheduled : Bool
  signalledError : Option String
deriving Repr, DecidableEq

/-- The synchronous part of the session page's SSE `useEffect`. -/
def sseEffectInit (sessionId apiUrl : String) : SseEffectResult :=
  if sessionId = "" ∨ apiUrl = "" then
    { transportOpened := false, timerScheduled := false, signalledError := none }
  else
    { transportOpened := true, timerScheduled := false, signalledError := none }

/-- State of the WHATWG streaming UTF-8 decoder backing `TextDecoder` with
`stream: true` (the relay's per-chunk transform): the partially accumulated
code point, how many continuation bytes are still needed and already seen,
and the admissible range for the next byte. -/
structure DecState where
  codePoint : Nat
  bytesNeeded : Nat
  bytesSeen : Nat
  lower : Nat
  upper : Nat
deriving Repr, DecidableEq

/-- Decoder ground state: nothing pending. -/
def initState : DecState := ⟨0, 0, 0, 0x80, 0xBF⟩

/-- WHATWG UTF-8 decoder step on a byte arriving in ground state: ASCII is
emitted directly, lead bytes open a 2/3/4-byte sequence (with the narrowed
second-byte ranges for `E0`/`ED`/`F0`/`F4` that exclude overlong and
surrogate encodings), and anything else is an error emitting `U+FFFD`. -/
def decStep0 (b : Nat) : DecState × List Nat :=
  if b ≤ 0x7F then (initState, [b])
  else if 0xC2 ≤ b ∧ b ≤ 0xDF then
    (⟨b % 32, 1, 0, 0x80, 0xBF⟩, [])
  else if 0xE0 ≤ b ∧ b ≤ 0xEF then
    (⟨b % 16, 2, 0, if b = 0xE0 then 0xA0 else 0x80,
      if b = 0xED then 0x9F else 0xBF⟩, [])
  else if 0xF0 ≤ b ∧ b ≤ 0xF4 then
    (⟨b % 8, 3, 0, if b = 0xF0 then 0x90 else 0x80,
      if b = 0xF4 then 0x8F else 0xBF⟩, [])
  else (initState, [0xFFFD])

/-- WHATWG UTF-8 decoder step: mid-sequence, an in-range continuation byte is
folded into the code point (emitting it when the sequence completes); an
out-of-range byte is an error emitting `U+FFFD` and is then re-handled as a
fresh lead byte. -/
def decStep (st : DecState) (b : Nat) : DecState × List Nat :=
  if st.bytesNeeded = 0 then decStep0 b
  else if st.lower ≤ b ∧ b ≤ st.upper then
    if st.bytesSeen + 1 = st.bytesNeeded then
      (initState, [st.codePoint * 64 + b % 64])
    else
      (⟨st.codePoint * 64 + b % 64, st.bytesNeeded, st.bytesSeen + 1,
        0x80, 0xBF⟩, [])
  else
    let p := decStep0 b
    (p.1, 0xFFFD :: p.2)

/-- Decode one chunk with `stream: true`: bytes are fed through `decStep`,
the emitted code points are collected, and an incomplete trailing sequence
stays in the returned decoder state for the next chunk. -/
def decodeChunk (st : DecState) : List Nat → DecState × List Nat
  | [] => (st, [])
  | b :: rest =>
    let p := decStep st b
    let q := decodeChunk p.1 rest
    (q.1, p.2 ++ q.2)

/-- UTF-8 encoding of one Unicode scalar value, as `TextEncoder` performs it
per character of the decoded string. -/
def utf8EncodeChar (c : Nat) : List Nat :=
  if c < 0x80 then [c]
  else if c < 0x800 then [0xC0 + c / 64, 0x80 + c % 64]
  else if c < 0x10000 then
    [0xE0 + c / 4096, 0x80 + c / 64 % 64, 0x80 + c % 64]
  else
    [0xF0 + c / 262144, 0x80 + c / 4096 % 64, 0x80 + c / 64 % 64,
      0x80 + c % 64]

/-- UTF-8 encoding of a sequence of scalar values (`TextEncoder.encode`). -/
def utf8Encode : List Nat → List Nat
  | [] => []
  | c :: cs => utf8EncodeChar c ++ utf8Encode cs

/-- A Unicode scalar value: in range and not a surrogate. -/
def validScalar (c : Nat) : Prop :=
  c < 0x110000 ∧ ¬(0xD800 ≤ c ∧ c ≤ 0xDFFF)

instance (c : Nat) : Decidable (validScalar c) := by
  unfold validScalar; infer_instance

/-- The relay's forwarding loop (`ReadableStream.start`): one `TextDecoder`
instance is threaded across all chunks; each upstream chunk is decoded with
`stream: true`, re-encoded with a fresh `TextEncoder`, and enqueued
downstream. -/
def forwardChunksAux (st : DecState) : List (List Nat) → List (List Nat)
  | [] => []
  | chunk :: rest =>
    let p := decodeChunk st chunk
    utf8Encode p.2 :: forwardChunksAux p.1 rest

/-- The downstream chunks the relay emits for the given upstream chunks. -/
def forwardChunks (chunks : List (List Nat)) : List (List Nat) :=
  forwardChunksAux initState chunks

/-- The upstream `fetch` response as the relay route sees it: `ok`,
`status`, `statusText`, and the body reader (`none` embeds a `null` body,
otherwise the sequence of chunks the reader yields). -/
structure BackendResponse where
  ok : Bool
  status : Nat
  statusText : String
  body : Option (List (List Nat))
deriving Repr, DecidableEq

/-- The body of the relay's downstream `Response`: either a plain text
message or the forwarded stream. -/
inductive RelayBody where
  | text (message : String)
  | stream (chunks : List (List Nat))
deriving Repr, DecidableEq

/-- The relay's downstream response, plus how many upstream connections the
route opened while producing it (fixed response headers are not modelled;
no claim concerns them). -/
structure RelayResult where
  status : Nat
  body : RelayBody
  upstreamCalls : Nat
deriving Repr, DecidableEq

/-- The relay route `GET` of `app/api/proxy/stream/[sessionId]/route.ts`:
resolve the origin address (the argument embeds `getApiUrlFromRedis()`,
`none` for an unconfigured/failed lookup); if absent, answer `503` without
contacting upstream; otherwise `fetch` the origin feed exactly once, mirror
a non-`ok` status downstream with a descriptive message, and on success
stream the forwarded chunks (status `200`, the `Response` default). -/
def relayGET (apiUrl : Option String) (sessionId : String)
    (upstream : String → BackendResponse) : RelayResult :=
  match apiUrl with
  | none =>
    { status := 503, body := .text "Backend API URL not configured",
      upstreamCalls := 0 }
  | some url =>
    let backendResponse := upstream (url ++ "/s/" ++ sessionId)
    if backendResponse.ok = false then
      { status := backendResponse.status,
        body := .text ("Backend error: " ++ backendResponse.statusText),
        upstreamCalls := 1 }
    else
      { status := 200,
        body := .stream (match backendResponse.body with
          | none => []
          | some chunks => forwardChunks chunks),
        upstreamCalls := 1 }

/-- `libs/apiUrl.ts`'s `getApiUrlSync()`: warns and returns the empty
string. -/
def getApiUrlSync : String := ""

/-- The `body` argument of `constructCURL` (`string | object | null`); an
object carries its `JSON.stringify` rendering, since serialization itself is
a platform builtin. -/
inductive JsBody where
  | null
  | str (s : String)
  | obj (stringified : String)
deriving Repr, DecidableEq

/-- JavaScript truthiness of a `body` value (`null` and `""` are falsy,
every object is truthy). -/
def jsTruthy : JsBody → Bool
  | .null => false
  | .str s => s != ""
  | .obj _ => true

/-- `typeof body === 'object' ? JSON.stringify(body) : body`, extended with
`""` for the `null` case (which the code never reaches because `null` is
falsy). -/
def bodyStringified : JsBody → String
  | .null => ""
  | .str s => s
  | .obj j => j

/-- JavaScript `a || b` for an optional string `a`: the fallback is used when
`a` is `undefined` or empty. -/
def jsOrString (a : Option String) (b : String) : String :=
  match a with
  | none => b
  | some u => if u = "" then b else u

/-- Characters serialized verbatim by `URLSearchParams.toString()`
(`application/x-www-form-urlencoded`): ASCII alphanumerics and `*-._`. -/
def isFormSafe (ch : Char) : Bool :=
  ch.isAlphanum || ch = '*' || ch = '-' || ch = '.' || ch = '_'

/-- Uppercase hexadecimal digit. -/
def hexDigitChar (n : Nat) : Char :=
  if n < 10 then Char.ofNat (48 + n) else Char.ofNat (55 + n)

/-- Percent-encode a byte sequence. -/
def percentEncodeBytes : List Nat → List Char
  | [] => []
  | b :: bs => '%' :: hexDigitChar (b / 16) :: hexDigitChar (b % 16)
      :: percentEncodeBytes bs

/-- `application/x-www-form-urlencoded` serialization of one character:
safe characters verbatim, space as `+`, everything else percent-encoded
UTF-8. -/
def formEncodeChar (ch : Char) : List Char :=
  if isFormSafe ch then [ch]
  else if ch = ' ' then ['+']
  else percentEncodeBytes (utf8EncodeChar ch.toNat)

/-- Form-encode a character sequence. -/
def formEncodeChars : List Char → List Char
  | [] => []
  | ch :: cs => formEncodeChar ch ++ formEncodeChars cs

/-- Form-encode a string (`URLSearchParams` component serialization). -/
def formEncode (s : String) : String :=
  String.mk (formEncodeChars s.data)

/-- `URLSearchParams` built by `constructCURL`: keys that are truthy (i.e.
non-empty) are appended, then `toString()` joins `key=value` pairs with
`&`. -/
def queryStringOf (queryParams : List (String × String)) : String :=
  String.intercalate "&"
    ((queryParams.filter (fun kv => kv.1 != "")).map
      (fun kv => formEncode kv.1 ++ "=" ++ formEncode kv.2))

/-- `value.replace(/'/g, "'\\''")` on the character list: each single quote
becomes the four-character sequence quote, backslash, quote, quote. -/
def escapeSingleQuoteChars : List Char → List Char
  | [] => []
  | ch :: cs =>
    (if ch = '\'' then ['\'', '\\', '\'', '\''] else [ch])
      ++ escapeSingleQuoteChars cs

/-- The shell single-quote escaping used for header values and the body. -/
def escapeSingleQuotes (s : String) : String :=
  String.mk (escapeSingleQuoteChars s.data)

/-- Inverse of the escaping: the four-character sequence quote, backslash,
quote, quote collapses back to one single quote. -/
def unescapeSingleQuoteChars : List Char → List Char
  | [] => []
  | [c1] => [c1]
  | [c1, c2] => [c1, c2]
  | [c1, c2, c3] => [c1, c2, c3]
  | c1 :: c2 :: c3 :: c4 :: cs4 =>
    if c1 = '\'' ∧ c2 = '\\' ∧ c3 = '\'' ∧ c4 = '\'' then
      '\'' :: unescapeSingleQuoteChars cs4
    else c1 :: unescapeSingleQuoteChars (c2 :: c3 :: c4 :: cs4)
termination_by l => l.length
decreasing_by all_goals simp [List.length_cons] <;> omega

/-- Inverse of `escapeSingleQuotes`. -/
def unescapeSingleQuotes (s : String) : String :=
  String.mk (unescapeSingleQuoteChars s.data)

/-- The argument record of `constructCURL` (`apiUrl` is the optional
parameter). -/
structure CurlInput where
  method : String
  path : String
  query_params : List (String × String)
  headers : List (String × String)
  body : JsBody
  apiUrl : Option String

/-- The first element `parts` starts with: `curl -X METHOD 'url'`, with the
url built from `apiUrl || getApiUrlSync()`, the path, and the query string
appended after `?` (or `&` when the url already contains `?`). -/
def curlBasePart (inp : CurlInput) : String :=
  let baseUrl := jsOrString inp.apiUrl getApiUrlSync
  let url0 := baseUrl ++ inp.path
  let queryString := queryStringOf inp.query_params
  let url :=
    if queryString != "" then
      url0 ++ (if url0.contains '?' then "&" else "?") ++ queryString
    else url0
  "curl -X " ++ inp.method.toUpper ++ " '" ++ url ++ "'"

/-- The `-H` part emitted for one header pair. -/
def headerPart (kv : String × String) : String :=
  "-H '" ++ kv.1 ++ ": " ++ escapeSingleQuotes kv.2 ++ "'"

/-- The `-d` part emitted for a body string. -/
def dataPart (bodyStr : String) : String :=
  "-d '" ++ escapeSingleQuotes bodyStr ++ "'"

/-- `key.toLowerCase() === 'content-length'`. -/
def isContentLength (key : String) : Bool :=
  key.toLower == "content-length"

/-- The `parts` array `constructCURL` accumulates: the base part; one `-H`
part per header via `forEach`, skipping keys that lowercase to
`content-length`; then, when the body is truthy and the uppercased method is
neither `GET` nor `HEAD`, the stringified body is computed and, when
non-empty, pushed as a `-d` part. -/
def constructCURLParts (inp : CurlInput) : List String :=
  let parts0 := [curlBasePart inp]
  let parts1 := inp.headers.foldl
    (fun acc kv => if isContentLength kv.1 then acc else acc ++ [headerPart kv])
    parts0
  if jsTruthy inp.body && inp.method.toUpper != "GET"
      && inp.method.toUpper != "HEAD" then
    let bodyStr := bodyStringified inp.body
    if bodyStr != "" then parts1 ++ [dataPart bodyStr] else parts1
  else parts1

/-- `libs/curl.ts`'s `constructCURL`: `parts.join(' \\\n  ')`. -/
def constructCURL (inp : CurlInput) : String :=
  String.intercalate " \\\n  " (constructCURLParts inp)

theorem decStep_initState (b : Nat) : decStep initState b = decStep0 b := by
  simp [decStep, initState]

theorem decodeChunk_cons_eq (st st2 : DecState) (b : Nat) (out rest : List Nat)
    (h : decStep st b = (st2, out)) :
    decodeChunk st (b :: rest) =
      ((decodeChunk st2 rest).1, out ++ (decodeChunk st2 rest).2) := by
  simp only [decodeChunk, h]

theorem decStep0_lead2 (b : Nat) (h1 : 0xC2 ≤ b) (h2 : b ≤ 0xDF) :
    decStep0 b = (⟨b % 32, 1, 0, 0x80, 0xBF⟩, []) := by
  unfold decStep0
  rw [if_neg (by omega), if_pos ⟨h1, h2⟩]

theorem decStep0_lead3 (b : Nat) (h1 : 0xE0 ≤ b) (h2 : b ≤ 0xEF) :
    decStep0 b = (⟨b % 16, 2, 0, if b = 0xE0 then 0xA0 else 0x80,
      if b = 0xED then 0x9F else 0xBF⟩, []) := by
  unfold decStep0
  rw [if_neg (by omega), if_neg (by omega), if_pos ⟨h1, h2⟩]

theorem decStep0_lead4 (b : Nat) (h1 : 0xF0 ≤ b) (h2 : b ≤ 0xF4) :
    decStep0 b = (⟨b % 8, 3, 0, if b = 0xF0 then 0x90 else 0x80,
      if b = 0xF4 then 0x8F else 0xBF⟩, []) := by
  unfold decStep0
  rw [if_neg (by omega), if_neg (by omega), if_neg (by omega), if_pos ⟨h1, h2⟩]

theorem decStep_done (cp seen low up b : Nat) (hr : low ≤ b ∧ b ≤ up) :
    decStep ⟨cp, seen + 1, seen, low, up⟩ b = (initState, [cp * 64 + b % 64]) := by
  unfold decStep
  rw [if_neg (by simp), if_pos hr, if_pos rfl]

theorem decStep_more (cp n seen low up b : Nat) (hn : ¬(n = 0))
    (hr : low ≤ b ∧ b ≤ up) (hs : ¬(seen + 1 = n)) :
    decStep ⟨cp, n, seen, low, up⟩ b =
      (⟨cp * 64 + b % 64, n, seen + 1, 0x80, 0xBF⟩, []) := by
  unfold decStep
  rw [if_neg hn, if_pos hr, if_neg hs]

theorem decodeChunk_encodeChar (c : Nat) (rest : List Nat) (h : validScalar c) :
    decodeChunk initState (utf8EncodeChar c ++ rest) =
      ((decodeChunk initState rest).1, c :: (decodeChunk initState rest).2) := by
  obtain ⟨hlt, hsur⟩ := h
  by_cases hA : c < 0x80
  · have he : utf8EncodeChar c = [c] := by
      unfold utf8EncodeChar; rw [if_pos hA]
    have hd1 : decStep initState c = (initState, [c]) := by
      rw [decStep_initState]; unfold decStep0; rw [if_pos (by omega : c ≤ 0x7F)]
    rw [he, List.singleton_append, decodeChunk_cons_eq _ _ _ _ _ hd1]
    simp
  by_cases hB : c < 0x800
  · have he : utf8EncodeChar c = [0xC0 + c / 64, 0x80 + c % 64] := by
      unfold utf8EncodeChar; rw [if_neg hA, if_pos hB]
    have hd1 : decStep initState (0xC0 + c / 64) =
        (⟨(0xC0 + c / 64) % 32, 1, 0, 0x80, 0xBF⟩, []) := by
      rw [decStep_initState]; exact decStep0_lead2 _ (by omega) (by omega)
    have hd2 : decStep (⟨(0xC0 + c / 64) % 32, 1, 0, 0x80, 0xBF⟩ : DecState)
        (0x80 + c % 64) = (initState, [c]) := by
      have hh := decStep_done ((0xC0 + c / 64) % 32) 0 0x80 0xBF (0x80 + c % 64)
        ⟨by omega, by omega⟩
      rw [show ((0xC0 + c / 64) % 32) * 64 + (0x80 + c % 64) % 64 = c from by omega] at hh
      exact hh
    rw [he, show ([0xC0 + c / 64, 0x80 + c % 64] : List Nat) ++ rest =
      (0xC0 + c / 64) :: (0x80 + c % 64) :: rest from rfl]
    rw [decodeChunk_cons_eq _ _ _ _ _ hd1, decodeChunk_cons_eq _ _ _ _ _ hd2]
    simp
  by_cases hC : c < 0x10000
  · have he : utf8EncodeChar c =
        [0xE0 + c / 4096, 0x80 + c / 64 % 64, 0x80 + c % 64] := by
      unfold utf8EncodeChar; rw [if_neg hA, if_neg hB, if_pos hC]
    have hd1 : decStep initState (0xE0 + c / 4096) =
        (⟨(0xE0 + c / 4096) % 16, 2, 0,
          if (0xE0 + c / 4096 : Nat) = 0xE0 then 0xA0 else 0x80,
          if (0xE0 + c / 4096 : Nat) = 0xED then 0x9F else 0xBF⟩, []) := by
      rw [decStep_initState]; exact decStep0_lead3 _ (by omega) (by omega)
    have hL : (if (0xE0 + c / 4096 : Nat) = 0xE0 then (0xA0 : Nat) else 0x80) ≤
        0x80 + c / 64 % 64 := by
      split_ifs with hb <;> omega
    have hU : 0x80 + c / 64 % 64 ≤
        (if (0xE0 + c / 4096 : Nat) = 0xED then (0x9F : Nat) else 0xBF) := by
      split_ifs with hb <;> omega
    have hd2 : decStep (⟨(0xE0 + c / 4096) % 16, 2, 0,
          if (0xE0 + c / 4096 : Nat) = 0xE0 then 0xA0 else 0x80,
          if (0xE0 + c / 4096 : Nat) = 0xED then 0x9F else 0xBF⟩ : DecState)
        (0x80 + c / 64 % 64) =
        (⟨((0xE0 + c / 4096) % 16) * 64 + (0x80 + c / 64 % 64) % 64, 2, 1,
          0x80, 0xBF⟩, []) := by
      exact decStep_more _ _ _ _ _ _ (by omega) ⟨hL, hU⟩ (by omega)
    have hd3 : decStep (⟨((0xE0 + c / 4096) % 16) * 64 + (0x80 + c / 64 % 64) % 64,
          2, 1, 0x80, 0xBF⟩ : DecState) (0x80 + c % 64) = (initState, [c]) := by
      have hh := decStep_done (((0xE0 + c / 4096) % 16) * 64 + (0x80 + c / 64 % 64) % 64)
        1 0x80 0xBF (0x80 + c % 64) ⟨by omega, by omega⟩
      rw [show (((0xE0 + c / 4096) % 16) * 64 + (0x80 + c / 64 % 64) % 64) * 64
        + (0x80 + c % 64) % 64 = c from by omega] at hh
      exact hh
    rw [he, show ([0xE0 + c / 4096, 0x80 + c / 64 % 64, 0x80 + c % 64] : List Nat)
      ++ rest = (0xE0 + c / 4096) :: (0x80 + c / 64 % 64) :: (0x80 + c % 64) :: rest
      from rfl]
    rw [decodeChunk_cons_eq _ _ _ _ _ hd1, decodeChunk_cons_eq _ _ _ _ _ hd2,
      decodeChunk_cons_eq _ _ _ _ _ hd3]
    simp
  · have he : utf8EncodeChar c =
        [0xF0 + c / 262144, 0x80 + c / 4096 % 64, 0x80 + c / 64 % 64,
          0x80 + c % 64] := by
      unfold utf8EncodeChar; rw [if_neg hA, if_neg hB, if_neg hC]
    have hd1 : decStep initState (0xF0 + c / 262144) =
        (⟨(0xF0 + c / 262144) % 8, 3, 0,
          if (0xF0 + c / 262144 : Nat) = 0xF0 then 0x90 else 0x80,
          if (0xF0 + c / 262144 : Nat) = 0xF4 then 0x8F else 0xBF⟩, []) := by
      rw [decStep_initState]; exact decStep0_lead4 _ (by omega) (by omega)
    have hL : (if (0xF0 + c / 262144 : Nat) = 0xF0 then (0x90 : Nat) else 0x80) ≤
        0x80 + c / 4096 % 64 := by
      split_ifs with hb <;> omega
    have hU : 0x80 + c / 4096 % 64 ≤
        (if (0xF0 + c / 262144 : Nat) = 0xF4 then (0x8F : Nat) else 0xBF) := by
      split_ifs with hb <;> omega
    have hd2 : decStep (⟨(0xF0 + c / 262144) % 8, 3, 0,
          if (0xF0 + c / 262144 : Nat) = 0xF0 then 0x90 else 0x80,
          if (0xF0 + c / 262144 : Nat) = 0xF4 then 0x8F else 0xBF⟩ : DecState)
        (0x80 + c / 4096 % 64) =
        (⟨((0xF0 + c / 262144) % 8) * 64 + (0x80 + c / 4096 % 64) % 64, 3, 1,
          0x80, 0xBF⟩, []) := by
      exact decStep_more _ _ _ _ _ _ (by omega) ⟨hL, hU⟩ (by omega)
    have hd3 : decStep (⟨((0xF0 + c / 262144) % 8) * 64 + (0x80 + c / 4096 % 64) % 64,
          3, 1, 0x80, 0xBF⟩ : DecState) (0x80 + c / 64 % 64) =
        (⟨(((0xF0 + c / 262144) % 8) * 64 + (0x80 + c / 4096 % 64) % 64) * 64
            + (0x80 + c / 64 % 64) % 64, 3, 2, 0x80, 0xBF⟩, []) := by
      have hh := decStep_more (((0xF0 + c / 262144) % 8) * 64 + (0x80 + c / 4096 % 64) % 64)
        3 1 0x80 0xBF (0x80 + c / 64 % 64) (by omega) ⟨by omega, by omega⟩ (by omega)
      exact hh
    have hd4 : decStep (⟨(((0xF0 + c / 262144) % 8) * 64 + (0x80 + c / 4096 % 64) % 64) * 64
          + (0x80 + c / 64 % 64) % 64, 3, 2, 0x80, 0xBF⟩ : DecState)
        (0x80 + c % 64) = (initState, [c]) := by
      have hh := decStep_done ((((0xF0 + c / 262144) % 8) * 64 + (0x80 + c / 4096 % 64) % 64) * 64
          + (0x80 + c / 64 % 64) % 64) 2 0x80 0xBF (0x80 + c % 64) ⟨by omega, by omega⟩
      rw [show ((((0xF0 + c / 262144) % 8) * 64 + (0x80 + c / 4096 % 64) % 64) * 64
          + (0x80 + c / 64 % 64) % 64) * 64 + (0x80 + c % 64) % 64 = c from by omega] at hh
      exact hh
    rw [he, show ([0xF0 + c / 262144, 0x80 + c / 4096 % 64, 0x80 + c / 64 % 64,
        0x80 + c % 64] : List Nat) ++ rest = (0xF0 + c / 262144)
        :: (0x80 + c / 4096 % 64) :: (0x80 + c / 64 % 64) :: (0x80 + c % 64) :: rest
      from rfl]
    rw [decodeChunk_cons_eq _ _ _ _ _ hd1, decodeChunk_cons_eq _ _ _ _ _ hd2,
      decodeChunk_cons_eq _ _ _ _ _ hd3, decodeChunk_cons_eq _ _ _ _ _ hd4]
    simp

theorem decodeChunk_utf8Encode_append (cps : List Nat)
    (h : ∀ c ∈ cps, validScalar c) (rest : List Nat) :
    decodeChunk initState (utf8Encode cps ++ rest) =
      ((decodeChunk initState rest).1, cps ++ (decodeChunk initState rest).2) := by
  induction cps with
  | nil => simp [utf8Encode]
  | cons c cs ih =>
    rw [show utf8Encode (c :: cs) = utf8EncodeChar c ++ utf8Encode cs from rfl,
      List.append_assoc,
      decodeChunk_encodeChar c _ (h c (List.mem_cons_self c cs)),
      ih (fun x hx => h x (List.mem_cons_of_mem c hx))]
    simp

theorem decodeChunk_utf8Encode (cps : List Nat) (h : ∀ c ∈ cps, validScalar c) :
    decodeChunk initState (utf8Encode cps) = (initState, cps) := by
  have hh := decodeChunk_utf8Encode_append cps h []
  simpa [decodeChunk] using hh

theorem forwardChunksAux_utf8Encode (cpss : List (List Nat))
    (h : ∀ cps ∈ cpss, ∀ c ∈ cps, validScalar c) :
    forwardChunksAux initState (cpss.map utf8Encode) = cpss.map utf8Encode := by
  induction cpss with
  | nil => rfl
  | cons cps rest ih =>
    simp only [List.map_cons, forwardChunksAux,
      decodeChunk_utf8Encode cps (h cps (List.mem_cons_self cps rest))]
    exact congrArg _ (ih (fun x hx => h x (List.mem_cons_of_mem cps hx)))

theorem foldl_skip_push {α : Type} (p : α → Bool) (f : α → String) (l : List α) :
    ∀ acc : List String,
      l.foldl (fun acc kv => if p kv then acc else acc ++ [f kv]) acc
        = acc ++ (l.filter (fun kv => !(p kv))).map f := by
  induction l with
  | nil => intro acc; simp
  | cons a l ih =>
    intro acc
    by_cases hp : p a = true
    · rw [List.foldl_cons, if_pos hp, ih acc]
      have hf : (a :: l).filter (fun kv => !(p kv)) = l.filter (fun kv => !(p kv)) := by
        simp [List.filter_cons, hp]
      rw [hf]
    · rw [List.foldl_cons, if_neg hp, ih (acc ++ [f a])]
      have hf : (a :: l).filter (fun kv => !(p kv))
          = a :: l.filter (fun kv => !(p kv)) := by
        simp [List.filter_cons, hp]
      rw [hf]
      simp

theorem unescape_cons_of_ne (c : Char) (t : List Char) (h : ¬(c = '\'')) :
    unescapeSingleQuoteChars (c :: t) = c :: unescapeSingleQuoteChars t := by
  match t with
  | [] => simp [unescapeSingleQuoteChars]
  | [a] => simp [unescapeSingleQuoteChars]
  | [a, b] => simp [unescapeSingleQuoteChars]
  | a :: b :: d :: rest =>
    simp only [unescapeSingleQuoteChars]
    rw [if_neg (by simp [h])]

theorem unescape_escape_chars (l : List Char) :
    unescapeSingleQuoteChars (escapeSingleQuoteChars l) = l := by
  induction l with
  | nil => simp [escapeSingleQuoteChars, unescapeSingleQuoteChars]
  | cons c cs ih =>
    by_cases h : c = '\''
    · subst h
      have hesc : escapeSingleQuoteChars ('\'' :: cs) =
          '\'' :: '\\' :: '\'' :: '\'' :: escapeSingleQuoteChars cs := by
        simp [escapeSingleQuoteChars]
      rw [hesc]
      simp only [unescapeSingleQuoteChars]
      rw [if_pos (by simp), ih]
    · have hesc : escapeSingleQuoteChars (c :: cs) =
          c :: escapeSingleQuoteChars cs := by
        simp [escapeSingleQuoteChars, h]
      rw [hesc, unescape_cons_of_ne c _ h, ih]

theorem headers_foldl_eq (headers : List (String × String)) (acc : List String) :
    headers.foldl
      (fun acc kv => if isContentLength kv.1 then acc else acc ++ [headerPart kv])
      acc
      = acc ++ (headers.filter (fun kv => !(isContentLength kv.1))).map headerPart := by
  induction headers generalizing acc with
  | nil => simp
  | cons a l ih =>
    by_cases hp : isContentLength a.1 = true
    · rw [List.foldl_cons, if_pos hp, ih acc]
      have hf : (a :: l).filter (fun kv => !(isContentLength kv.1))
          = l.filter (fun kv => !(isContentLength kv.1)) := by
        simp [List.filter_cons, hp]
      rw [hf]
    · rw [List.foldl_cons, if_neg hp, ih (acc ++ [headerPart a])]
      have hf : (a :: l).filter (fun kv => !(isContentLength kv.1))
          = a :: l.filter (fun kv => !(isContentLength kv.1)) := by
        simp [List.filter_cons, hp]
      rw [hf]
      simp

/-- A concrete captured request used in concrete-input theorems. -/
def sampleRequest (rid ts : String) : WebhookRequest :=
  { request_id := rid, method := "POST", path := "/i/session", query_params := [],
    headers := [], body := "", ip_address := "127.0.0.1", user_agent := "ua",
    timestamp := ts, content_length := 0 }

/-- C1 counterexample: the same two operations, a live insertion of `r1` and a
historical load of the empty batch, yield different sets of stored records in
their two interleavings — the historical load replaces the store wholesale,
discarding the earlier live insertion. -/
theorem c1_counterexample :
    ([MergeOp.live (sampleRequest "r1" "t1"), MergeOp.historical (some [])].Perm
      [MergeOp.historical (some []), MergeOp.live (sampleRequest "r1" "t1")])
    ∧ runMergeOps []
        [MergeOp.live (sampleRequest "r1" "t1"), MergeOp.historical (some [])] = []
    ∧ runMergeOps []
        [MergeOp.historical (some []), MergeOp.live (sampleRequest "r1" "t1")]
        = [sampleRequest "r1" "t1"]
    ∧ storeIds (runMergeOps []
        [MergeOp.live (sampleRequest "r1" "t1"), MergeOp.historical (some [])])
      ≠ storeIds (runMergeOps []
        [MergeOp.historical (some []), MergeOp.live (sampleRequest "r1" "t1")]) := by
  refine ⟨List.Perm.swap _ _ _, by decide, by decide, by decide⟩

/-- C1 (amended): when the historical batch load executes before all live
insertions, the set of distinct stored `requestId`s is the batch's ids
together with the live events' ids, independent of the initial store and of
the order of the live insertions; interleavings in which a live insertion
precedes the load lose that record, because `loadHistorical` replaces the
store contents. -/
theorem c1_amended_batch_first_union (s0 : List WebhookRequest)
    (batch : Option (List WebhookRequest)) (lives : List WebhookRequest)
    (i : String) :
    i ∈ storeIds (runMergeOps s0
        (MergeOp.historical batch :: lives.map MergeOp.live)) ↔
      i ∈ storeIds (loadHistorical batch)
        ∨ i ∈ lives.map WebhookRequest.request_id := by
  unfold runMergeOps
  rw [List.foldl_cons,
    show applyMergeOp s0 (MergeOp.historical batch) = loadHistorical batch from rfl,
    foldl_applyMergeOp_live]
  exact mem_storeIds_foldl_appendLive lives (loadHistorical batch) i

/-- C2: the reconnect delays for attempts 0..9 are exactly
1, 2, 4, 8, 16, 30, 30, 30, 30, 30 seconds (in milliseconds, no jitter);
while the budget lasts, a transport error with a closed transport schedules
exactly the timer `reconnectDelay attempt` and increments the counter; once
the counter has reached 10, every further transport error sets the terminal
failure message, leaves the connected flag down, and schedules no timer. -/
theorem c2_backoff_schedule :
    ((List.range 10).map reconnectDelay =
      [1000, 2000, 4000, 8000, 16000, 30000, 30000, 30000, 30000, 30000])
    ∧ (∀ (s : ConsumerState) (readyStateClosed : Bool),
        s.reconnectAttempts < maxReconnectAttempts → readyStateClosed = true →
          (onError readyStateClosed s).pendingTimer
              = some (reconnectDelay s.reconnectAttempts)
          ∧ (onError readyStateClosed s).reconnectAttempts
              = s.reconnectAttempts + 1
          ∧ (onError readyStateClosed s).error = s.error)
    ∧ (∀ (s : ConsumerState) (readyStateClosed : Bool),
        maxReconnectAttempts ≤ s.reconnectAttempts →
          (onError readyStateClosed s).error = some sseFailureMessage
          ∧ (onError readyStateClosed s).pendingTimer = s.pendingTimer
          ∧ (onError readyStateClosed s).reconnectAttempts = s.reconnectAttempts
          ∧ (onError readyStateClosed s).isConnected = false) := by
  refine ⟨by decide, ?_, ?_⟩
  · intro s b h1 h2
    subst h2
    unfold onError
    rw [if_pos ⟨h1, rfl⟩]
    exact ⟨rfl, rfl, rfl⟩
  · intro s b h
    unfold onError
    rw [if_neg (by simp; omega), if_pos (by simpa using h)]
    exact ⟨rfl, rfl, rfl, rfl⟩

/-- Witness for `c2_backoff_schedule` at concrete states: attempt 3 schedules
the 8 s timer; at attempt 10 the error becomes terminal with no timer. -/
theorem c2_backoff_schedule_witness :
    ((⟨[], true, none, 3, none, true⟩ : ConsumerState).reconnectAttempts
        < maxReconnectAttempts)
    ∧ (onError true ⟨[], true, none, 3, none, true⟩).pendingTimer = some 8000
    ∧ (maxReconnectAttempts
        ≤ (⟨[], false, none, 10, none, true⟩ : ConsumerState).reconnectAttempts)
    ∧ (onError true ⟨[], false, none, 10, none, true⟩).error
        = some sseFailureMessage
    ∧ (onError true ⟨[], false, none, 10, none, true⟩).pendingTimer = none := by
  refine ⟨by decide, ?_, by decide, ?_, ?_⟩
  · exact (c2_backoff_schedule.2.1 ⟨[], true, none, 3, none, true⟩ true
      (by decide) rfl).1
  · exact (c2_backoff_schedule.2.2 ⟨[], false, none, 10, none, true⟩ true
      (by decide)).1
  · exact (c2_backoff_schedule.2.2 ⟨[], false, none, 10, none, true⟩ true
      (by decide)).2.1

/-- C3: `appendLive` is idempotent under `request_id` — an event whose id is
already stored leaves the store unchanged — and prepends a fresh event to the
front regardless of its timestamp; consequently, any sequence of live
insertions into a store with distinct ids keeps all stored ids distinct. -/
theorem c3_appendLive_dedup :
    (∀ (s : List WebhookRequest) (e : WebhookRequest),
        e.request_id ∈ storeIds s → appendLive s e = s)
    ∧ (∀ (s : List WebhookRequest) (e : WebhookRequest),
        e.request_id ∉ storeIds s → appendLive s e = e :: s)
    ∧ (∀ (s l : List WebhookRequest),
        (storeIds s).Nodup → (storeIds (l.foldl appendLive s)).Nodup) :=
  ⟨appendLive_of_mem, appendLive_of_not_mem,
    fun s l h => nodup_storeIds_foldl_appendLive l s h⟩

/-- Witness for `c3_appendLive_dedup` on the spec's scenario store
`[r1@t1, r2@t2, r3@t3]`: a duplicate `r2` leaves it unchanged, a fresh `r4`
is prepended, and ids stay distinct. -/
theorem c3_appendLive_dedup_witness :
    ((sampleRequest "r2" "t9").request_id ∈ storeIds
      [sampleRequest "r1" "t1", sampleRequest "r2" "t2", sampleRequest "r3" "t3"])
    ∧ appendLive
        [sampleRequest "r1" "t1", sampleRequest "r2" "t2", sampleRequest "r3" "t3"]
        (sampleRequest "r2" "t9")
      = [sampleRequest "r1" "t1", sampleRequest "r2" "t2", sampleRequest "r3" "t3"]
    ∧ ((sampleRequest "r4" "t9").request_id ∉ storeIds
      [sampleRequest "r1" "t1", sampleRequest "r2" "t2", sampleRequest "r3" "t3"])
    ∧ appendLive
        [sampleRequest "r1" "t1", sampleRequest "r2" "t2", sampleRequest "r3" "t3"]
        (sampleRequest "r4" "t9")
      = [sampleRequest "r4" "t9", sampleRequest "r1" "t1",
          sampleRequest "r2" "t2", sampleRequest "r3" "t3"]
    ∧ (storeIds ([sampleRequest "r4" "t9", sampleRequest "r2" "t0"].foldl appendLive
        [sampleRequest "r1" "t1", sampleRequest "r2" "t2",
          sampleRequest "r3" "t3"])).Nodup := by
  refine ⟨by decide, c3_appendLive_dedup.1 _ _ (by decide), by decide,
    c3_appendLive_dedup.2.1 _ _ (by decide),
    c3_appendLive_dedup.2.2 _ _ (by decide)⟩

/-- C4: a `request` message whose payload fails to parse is dropped: the
listener returns the state unchanged — same store, same connection flag, same
error, same attempt counter, same timer, transport still open. -/
theorem c4_malformed_dropped (parse : String → Option WebhookRequest)
    (data : String) (s : ConsumerState) (h : parse data = none) :
    onRequestEvent parse data s = s := by
  unfold onRequestEvent
  rw [h]

/-- Witness for `c4_malformed_dropped` on a concrete malformed payload and a
concrete open-connection state. -/
theorem c4_malformed_dropped_witness :
    ((fun (_ : String) => (none : Option WebhookRequest)) "not json" = none)
    ∧ onRequestEvent (fun _ => none) "not json"
        ⟨[sampleRequest "r1" "t1"], true, none, 0, none, true⟩
      = ⟨[sampleRequest "r1" "t1"], true, none, 0, none, true⟩ :=
  ⟨rfl, c4_malformed_dropped (fun _ => none) "not json" _ rfl⟩

/-- C5: with no origin address resolvable the relay answers `503` with the
configuration message and opens no upstream connection at all, whatever the
session id and whatever the upstream would have answered. -/
theorem c5_unconfigured_503 (sessionId : String)
    (upstream : String → BackendResponse) :
    relayGET none sessionId upstream =
      { status := 503, body := .text "Backend API URL not configured",
        upstreamCalls := 0 } := rfl

/-- C6: with an origin configured the relay opens exactly one upstream
connection, and when the upstream answers non-`ok` with status `S` the
downstream response carries the same status `S` together with the
descriptive `Backend error:` message. -/
theorem c6_status_transparency (url sessionId : String)
    (upstream : String → BackendResponse) :
    (relayGET (some url) sessionId upstream).upstreamCalls = 1
    ∧ ((upstream (url ++ "/s/" ++ sessionId)).ok = false →
        (relayGET (some url) sessionId upstream).status
            = (upstream (url ++ "/s/" ++ sessionId)).status
        ∧ (relayGET (some url) sessionId upstream).body
            = .text ("Backend error: "
                ++ (upstream (url ++ "/s/" ++ sessionId)).statusText)) := by
  constructor
  · simp only [relayGET]
    by_cases h : (upstream (url ++ "/s/" ++ sessionId)).ok = false
    · rw [if_pos h]
    · rw [if_neg h]
  · intro h
    simp only [relayGET]
    rw [if_pos h]
    exact ⟨rfl, rfl⟩

/-- An upstream that answers `404 Not Found` to every request. -/
def upstream404 : String → BackendResponse :=
  fun _ => { ok := false, status := 404, statusText := "Not Found", body := none }

/-- Witness for `c6_status_transparency`: an upstream `404` is relayed
downstream as `404`. -/
theorem c6_status_transparency_witness :
    ((upstream404 ("http://backend" ++ "/s/" ++ "sid")).ok = false)
    ∧ (relayGET (some "http://backend") "sid" upstream404).status = 404
    ∧ (relayGET (some "http://backend") "sid" upstream404).upstreamCalls = 1 := by
  refine ⟨rfl, ?_, (c6_status_transparency "http://backend" "sid" upstream404).1⟩
  exact ((c6_status_transparency "http://backend" "sid" upstream404).2 rfl).1.trans rfl

/-- C7 counterexample: the per-chunk decode/encode transform is not the
identity on arbitrary byte chunks — the invalid byte `0xFF` is rewritten to
the UTF-8 replacement character `EF BF BD`. -/
theorem c7_counterexample :
    forwardChunks [[0xFF]] = [[0xEF, 0xBF, 0xBD]]
    ∧ forwardChunks [[0xFF]] ≠ [[0xFF]] := by
  exact ⟨by decide, by decide⟩

/-- C7 (amended): on chunks that are complete UTF-8 encodings of scalar
values — as SSE text frames are — the relay's forwarding loop emits exactly
the bytes received, chunk-by-chunk, with no coalescing and no alteration;
arbitrary byte chunks (invalid sequences, or a code point split across a
chunk boundary) may be altered or re-chunked by the decode/encode pair. -/
theorem c7_valid_utf8_identity (cpss : List (List Nat))
    (h : ∀ cps ∈ cpss, ∀ c ∈ cps, validScalar c) :
    forwardChunks (cpss.map utf8Encode) = cpss.map utf8Encode :=
  forwardChunksAux_utf8Encode cpss h

/-- Witness for `c7_valid_utf8_identity` on concrete chunks containing
1-, 3- and 4-byte characters. -/
theorem c7_valid_utf8_identity_witness :
    (∀ cps ∈ [[104, 105], [0x2603, 0x1F600]], ∀ c ∈ cps, validScalar c)
    ∧ forwardChunks ([[104, 105], [0x2603, 0x1F600]].map utf8Encode)
        = [[104, 105], [0x2603, 0x1F600]].map utf8Encode :=
  ⟨by decide, c7_valid_utf8_identity _ (by decide)⟩

/-- C8 counterexample: with an empty session id the SSE effect signals no
`ConfigurationError` at all — it silently returns (`signalledError = none`),
merely opening no transport. -/
theorem c8_counterexample :
    (sseEffectInit "" "http://api").signalledError = none
    ∧ (sseEffectInit "" "http://api").transportOpened = false := by
  exact ⟨by decide, by decide⟩

/-- C8 (amended): when the session id is empty or no feed endpoint is
resolvable, the SSE effect fails fast — it opens no transport and schedules
no retry timer — but it surfaces no `ConfigurationError` to anyone: the
guard silently returns. -/
theorem c8_failfast_silent (sessionId apiUrl : String)
    (h : sessionId = "" ∨ apiUrl = "") :
    sseEffectInit sessionId apiUrl =
      { transportOpened := false, timerScheduled := false,
        signalledError := none } := by
  unfold sseEffectInit
  rw [if_pos h]

/-- Witness for `c8_failfast_silent` at a concrete empty session id. -/
theorem c8_failfast_silent_witness :
    (("" : String) = "" ∨ ("http://api" : String) = "")
    ∧ sseEffectInit "" "http://api" =
        { transportOpened := false, timerScheduled := false,
          signalledError := none } :=
  ⟨Or.inl rfl, c8_failfast_silent "" "http://api" (Or.inl rfl)⟩

/-- C9: the effect cleanup (unsubscribe) cancels any pending retry timer and
closes any open transport from any state whatsoever; afterwards no timer can
fire and no transport callback can be delivered, and running the cleanup
again changes nothing (safe from every state, including mid-reconnect
wait). -/
theorem c9_cleanup_terminal (s : ConsumerState) :
    (cleanup s).pendingTimer = none
    ∧ (cleanup s).transportOpen = false
    ∧ timerCanFire (cleanup s) = false
    ∧ transportCanDeliver (cleanup s) = false
    ∧ cleanup (cleanup s) = cleanup s :=
  ⟨rfl, rfl, rfl, rfl, rfl⟩

/-- C10: the generated curl command is the join of: the base part; one `-H`
part per header whose key does not lowercase to `content-length` (in order,
values escaped); and a `-d` part exactly when the stringified body is
non-empty and the uppercased method is neither `GET` nor `HEAD` (body
escaped). The single-quote escaping used for header values and the body is
lossless: every quote becomes `'\''` and the original text is recoverable. -/
theorem c10_constructCURL_shape (inp : CurlInput) :
    constructCURL inp = String.intercalate " \\\n  "
      (curlBasePart inp
        :: ((inp.headers.filter (fun kv => !(isContentLength kv.1))).map headerPart
        ++ (if bodyStringified inp.body != "" && inp.method.toUpper != "GET"
              && inp.method.toUpper != "HEAD"
            then [dataPart (bodyStringified inp.body)] else [])))
    ∧ (∀ v : String, unescapeSingleQuotes (escapeSingleQuotes v) = v) := by
  constructor
  · simp only [constructCURL, constructCURLParts]
    rw [headers_foldl_eq]
    cases hb : inp.body with
    | null => simp [jsTruthy, bodyStringified]
    | str s =>
      by_cases hs : s = ""
      · subst hs; simp [jsTruthy, bodyStringified]
      · simp only [jsTruthy, bodyStringified]
        split_ifs <;> simp_all
    | obj j =>
      by_cases hj : j = ""
      · subst hj; simp [jsTruthy, bodyStringified]
      · simp only [jsTruthy, bodyStringified]
        split_ifs <;> simp_all
  · intro v
    show String.mk (unescapeSingleQuoteChars
      (String.mk (escapeSingleQuoteChars v.data)).data) = v
    rw [show (String.mk (escapeSingleQuoteChars v.data)).data
      = escapeSingleQuoteChars v.data from rfl]
    rw [unescape_escape_chars]

end EchoHook
